import Mathlib

/-!
Verification development for the `whirlpool` node runtime.

This file gives a shallow embedding, in Lean, of the parts of the program
that the membership, framing, message, persistence and startup claims are
about, and proves (or refutes) each claim against that embedding.

Conventions used throughout:

* Rust `u64`/`usize` values are embedded as `Nat`, with `% 2 ^ 64`
  written out explicitly at the points where the program performs a
  machine-width cast (`as u64`).
* Byte streams are `List Nat`, each element a byte value `< 256`.
* `uuid::Uuid` is embedded as its canonical string form (an opaque
  identifier ordered by its canonical representation); `SocketAddr` is
  embedded as its display string.  Both types serialize through serde as
  JSON strings of exactly those forms, so nothing in the claims depends
  on their internal structure.
* Fallible operations return `Option`/`Except`; places where the Rust
  source can panic (`todo!`, `panic!`, arithmetic underflow) are made
  explicit as dedicated result constructors so that the theorems can
  talk about them.
-/

namespace Whirlpool

/-!
### JSON document model

`serde_json` values, restricted to the grammar that the whirlpool
payload types (`Request`, `Response`, `PersistInner`) can ever inhabit:
strings, `null`, and objects.  (No numbers, booleans or arrays occur in
any serialization of these types: uuids, socket addresses and header
values are all serialized as JSON strings.)  `JsonFields` is the field
list of an object, kept in writing order, mirroring iteration order of
the Rust `HashMap` serializer.
-/

mutual

inductive Json : Type where
  | null : Json
  | str : String → Json
  | obj : JsonFields → Json

inductive JsonFields : Type where
  | nil : JsonFields
  | cons : String → Json → JsonFields → JsonFields

end

/-- Opening brace character (written via its code point). -/
def lbrace : Char := Char.ofNat 123

/-- Closing brace character (written via its code point). -/
def rbrace : Char := Char.ofNat 125

/-- Lowercase hexadecimal digit, as used by serde_json's `\u00XX` escapes. -/
def hexDigitChar (n : Nat) : Char :=
  if n < 10 then Char.ofNat (48 + n) else Char.ofNat (87 + n)

/-- Escape one character the way serde_json's string serializer does:
`"` and `\` get a backslash escape, the five short control escapes are
used for backspace, tab, newline, form feed and carriage return, any
other control character below `0x20` becomes `\u00XX`, and every other
character is emitted unchanged. -/
def escapeChar (c : Char) : List Char :=
  if c = '\"' then ['\\', '\"']
  else if c = '\\' then ['\\', '\\']
  else if c = '\x08' then ['\\', 'b']
  else if c = '\t' then ['\\', 't']
  else if c = '\n' then ['\\', 'n']
  else if c = '\x0c' then ['\\', 'f']
  else if c = '\r' then ['\\', 'r']
  else if c.toNat < 32 then
    ['\\', 'u', '0', '0', hexDigitChar (c.toNat / 16), hexDigitChar (c.toNat % 16)]
  else [c]

/-- Escape a character list (the body of a JSON string literal). -/
def escapeList : List Char → List Char
  | [] => []
  | c :: cs => escapeChar c ++ escapeList cs

/-- Render a JSON string literal, quotes included. -/
def renderString (s : String) : List Char :=
  '\"' :: (escapeList s.data ++ ['\"'])

/-- Two spaces of indentation per nesting level, as produced by
serde_json's pretty printer. -/
def indentChars (n : Nat) : List Char :=
  List.replicate (2 * n) ' '

mutual

/-- Render a JSON value the way `serde_json::to_writer_pretty` does, at
the given indentation depth: `null` and strings inline, the empty
object as two braces, and a non-empty object with each field on its own
indented line. -/
def renderJson : Json → Nat → List Char
  | .null, _ => ['n', 'u', 'l', 'l']
  | .str s, _ => renderString s
  | .obj .nil, _ => [lbrace, rbrace]
  | .obj (.cons k v fs), ind =>
      lbrace :: '\n' ::
        (renderFields (.cons k v fs) (ind + 1) ++ '\n' :: (indentChars ind ++ [rbrace]))

/-- Render a non-empty field list at the given indentation depth, with
`",\n"` between consecutive fields (and nothing after the last). -/
def renderFields : JsonFields → Nat → List Char
  | .nil, _ => []
  | .cons k v .nil, ind =>
      indentChars ind ++ (renderString k ++ ':' :: ' ' :: renderJson v ind)
  | .cons k v (.cons k2 v2 fs), ind =>
      indentChars ind ++
        (renderString k ++ ':' :: ' ' :: renderJson v ind) ++
        ',' :: '\n' :: renderFields (.cons k2 v2 fs) ind

end

/-!
### JSON parser

Recursive-descent model of `serde_json::from_slice`'s grammar,
restricted to the same string/null/object fragment.  Whitespace is
accepted anywhere the real parser accepts it.  `parseVal` and
`parseMembers` carry explicit fuel (the nesting they may still enter);
`parseJsonText` supplies fuel sufficient for any input.
-/

/-- JSON insignificant whitespace. -/
def isJsonWs (c : Char) : Bool :=
  c = ' ' || c = '\n' || c = '\t' || c = '\r'

/-- Drop leading JSON whitespace. -/
def skipWs : List Char → List Char
  | [] => []
  | c :: rest => if isJsonWs c then skipWs rest else c :: rest

/-- Value of one hexadecimal digit (either case), if it is one. -/
def hexVal (c : Char) : Option Nat :=
  if 48 ≤ c.toNat ∧ c.toNat ≤ 57 then some (c.toNat - 48)
  else if 97 ≤ c.toNat ∧ c.toNat ≤ 102 then some (c.toNat - 87)
  else if 65 ≤ c.toNat ∧ c.toNat ≤ 70 then some (c.toNat - 55)
  else none

/-- Parse the body of a JSON string literal (the opening quote already
consumed), returning the unescaped characters and the input after the
closing quote.  Escape handling mirrors serde_json: the two mandatory
escapes, `/`, the five short control escapes, and `\uXXXX` (rejecting
unpaired surrogate code points, which our renderer never emits). -/
def parseStringBody : List Char → Option (List Char × List Char)
  | [] => none
  | c :: rest =>
    if c = '\"' then some ([], rest)
    else if c = '\\' then
      match rest with
      | [] => none
      | e :: rest2 =>
        if e = '\"' then (parseStringBody rest2).map (fun p => ('\"' :: p.1, p.2))
        else if e = '\\' then (parseStringBody rest2).map (fun p => ('\\' :: p.1, p.2))
        else if e = '/' then (parseStringBody rest2).map (fun p => ('/' :: p.1, p.2))
        else if e = 'b' then (parseStringBody rest2).map (fun p => ('\x08' :: p.1, p.2))
        else if e = 'f' then (parseStringBody rest2).map (fun p => ('\x0c' :: p.1, p.2))
        else if e = 'n' then (parseStringBody rest2).map (fun p => ('\n' :: p.1, p.2))
        else if e = 'r' then (parseStringBody rest2).map (fun p => ('\r' :: p.1, p.2))
        else if e = 't' then (parseStringBody rest2).map (fun p => ('\t' :: p.1, p.2))
        else if e = 'u' then
          match rest2 with
          | h1 :: h2 :: h3 :: h4 :: rest3 =>
            match hexVal h1, hexVal h2, hexVal h3, hexVal h4 with
            | some a, some b, some c2, some d =>
              let n := a * 4096 + b * 256 + c2 * 16 + d
              if n < 55296 ∨ 57343 < n then
                (parseStringBody rest3).map (fun p => (Char.ofNat n :: p.1, p.2))
              else none
            | _, _, _, _ => none
          | _ => none
        else none
    else (parseStringBody rest).map (fun p => (c :: p.1, p.2))

mutual

/-- Parse one JSON value (after optional whitespace), with fuel
bounding the object nesting that may still be entered. -/
def parseVal : Nat → List Char → Option (Json × List Char)
  | 0, _ => none
  | fuel + 1, l =>
    match skipWs l with
    | [] => none
    | c :: rest =>
      if c = 'n' then
        match rest with
        | u :: l1 :: l2 :: rest2 =>
          if u = 'u' ∧ l1 = 'l' ∧ l2 = 'l' then some (.null, rest2) else none
        | _ => none
      else if c = '\"' then
        (parseStringBody rest).map (fun p => (Json.str (String.mk p.1), p.2))
      else if c = lbrace then
        match skipWs rest with
        | [] => none
        | d :: rest2 =>
          if d = rbrace then some (.obj .nil, rest2)
          else (parseMembers fuel rest).map (fun p => (Json.obj p.1, p.2))
      else none

/-- Parse the members of a non-empty JSON object, having consumed the
opening brace, up to and including the closing brace. -/
def parseMembers : Nat → List Char → Option (JsonFields × List Char)
  | 0, _ => none
  | fuel + 1, l =>
    match skipWs l with
    | [] => none
    | c :: rest =>
      if c = '\"' then
        match parseStringBody rest with
        | none => none
        | some (k, rest1) =>
          match skipWs rest1 with
          | [] => none
          | d :: rest2 =>
            if d = ':' then
              match parseVal fuel rest2 with
              | none => none
              | some (v, rest3) =>
                match skipWs rest3 with
                | [] => none
                | e :: rest4 =>
                  if e = ',' then
                    (parseMembers fuel rest4).map
                      (fun p => (JsonFields.cons (String.mk k) v p.1, p.2))
                  else if e = rbrace then
                    some (JsonFields.cons (String.mk k) v .nil, rest4)
                  else none
            else none
      else none

end

/-- Parse a complete JSON document: one value, then only whitespace up
to the end of the input (as `serde_json::from_slice` requires). -/
def parseJsonText (chars : List Char) : Option Json :=
  match parseVal (chars.length + 1) chars with
  | none => none
  | some (j, rest) =>
    match skipWs rest with
    | [] => some j
    | _ :: _ => none

/-!
### Round trip of the JSON text layer
-/

mutual

/-- Structural size of a JSON value (used as parser fuel bound). -/
def jsize : Json → Nat
  | .null => 1
  | .str _ => 1
  | .obj fs => 1 + fsize fs

/-- Structural size of a field list. -/
def fsize : JsonFields → Nat
  | .nil => 1
  | .cons _ v fs => 1 + jsize v + fsize fs

end

theorem string_mk_data (s : String) : String.mk s.data = s := rfl

theorem hexVal_hexDigitChar : ∀ n : Nat, n < 16 → hexVal (hexDigitChar n) = some n := by
  decide

theorem skipWs_cons_false {c : Char} (h : isJsonWs c = false) (l : List Char) :
    skipWs (c :: l) = c :: l := by
  simp [skipWs, h]

theorem skipWs_append {w : List Char} (h : ∀ c ∈ w, isJsonWs c = true) (l : List Char) :
    skipWs (w ++ l) = skipWs l := by
  induction w with
  | nil => simp
  | cons c cs ih =>
    have hc := h c (by simp)
    simp only [List.cons_append, skipWs, hc, if_true]
    exact ih (fun d hd => h d (by simp [hd]))

theorem skipWs_indentChars (n : Nat) (l : List Char) :
    skipWs (indentChars n ++ l) = skipWs l := by
  apply skipWs_append
  intro c hc
  simp only [indentChars] at hc
  rw [List.eq_of_mem_replicate hc]
  decide

theorem parseStringBody_escape (cs : List Char) :
    ∀ rest : List Char, parseStringBody (escapeList cs ++ '\"' :: rest) = some (cs, rest) := by
  induction cs with
  | nil =>
    intro rest
    rw [escapeList, List.nil_append, parseStringBody.eq_def]
    simp
  | cons c cs ih =>
    intro rest
    rw [escapeList, List.append_assoc]
    by_cases h1 : c = '\"'
    · subst h1
      rw [escapeChar]
      simp only [if_pos rfl, List.cons_append, List.nil_append]
      rw [parseStringBody.eq_def]
      simp [ih]
    by_cases h2 : c = '\\'
    · subst h2
      rw [escapeChar]
      simp only [ite_true, ite_false, List.cons_append, List.nil_append]
      rw [parseStringBody.eq_def]
      simp [ih]
    by_cases h3 : c = '\x08'
    · subst h3
      rw [escapeChar]
      simp only [ite_true, ite_false, List.cons_append, List.nil_append]
      rw [parseStringBody.eq_def]
      simp [ih]
    by_cases h4 : c = '\t'
    · subst h4
      rw [escapeChar]
      simp only [ite_true, ite_false, List.cons_append, List.nil_append]
      rw [parseStringBody.eq_def]
      simp [ih]
    by_cases h5 : c = '\n'
    · subst h5
      rw [escapeChar]
      simp only [ite_true, ite_false, List.cons_append, List.nil_append]
      rw [parseStringBody.eq_def]
      simp [ih]
    by_cases h6 : c = '\x0c'
    · subst h6
      rw [escapeChar]
      simp only [ite_true, ite_false, List.cons_append, List.nil_append]
      rw [parseStringBody.eq_def]
      simp [ih]
    by_cases h7 : c = '\r'
    · subst h7
      rw [escapeChar]
      simp only [ite_true, ite_false, List.cons_append, List.nil_append]
      rw [parseStringBody.eq_def]
      simp [ih]
    by_cases h8 : c.toNat < 32
    · have hd0 : hexVal '0' = some 0 := by decide
      have hdiv : hexVal (hexDigitChar (c.toNat / 16)) = some (c.toNat / 16) :=
        hexVal_hexDigitChar _ (by omega)
      have hmod : hexVal (hexDigitChar (c.toNat % 16)) = some (c.toNat % 16) :=
        hexVal_hexDigitChar _ (by omega)
      rw [escapeChar]
      simp only [h1, h2, h3, h4, h5, h6, h7, h8, ite_true, ite_false,
        List.cons_append, List.nil_append]
      rw [parseStringBody.eq_def]
      simp only [ite_true, ite_false, hd0, hdiv, hmod]
      have hn : 0 * 4096 + 0 * 256 + c.toNat / 16 * 16 + c.toNat % 16 = c.toNat := by omega
      rw [hn]
      rw [if_pos (Or.inl (by omega))]
      simp [ih]
    · have hesc : escapeChar c = [c] := by
        rw [escapeChar]
        simp [h1, h2, h3, h4, h5, h6, h7, h8]
      rw [hesc, List.cons_append, List.nil_append, parseStringBody.eq_def]
      simp [h1, h2, ih]

theorem jsize_pos (j : Json) : 1 ≤ jsize j := by
  cases j <;> simp [jsize]

theorem skipWs_cons_true {c : Char} (h : isJsonWs c = true) (l : List Char) :
    skipWs (c :: l) = skipWs l := by
  simp [skipWs, h]

theorem skipWs_quote (l : List Char) : skipWs ('\"' :: l) = '\"' :: l :=
  skipWs_cons_false (by decide) l

theorem skipWs_colon (l : List Char) : skipWs (':' :: l) = ':' :: l :=
  skipWs_cons_false (by decide) l

theorem skipWs_comma (l : List Char) : skipWs (',' :: l) = ',' :: l :=
  skipWs_cons_false (by decide) l

theorem skipWs_lbrace (l : List Char) : skipWs (lbrace :: l) = lbrace :: l :=
  skipWs_cons_false (by decide) l

theorem skipWs_rbrace (l : List Char) : skipWs (rbrace :: l) = rbrace :: l :=
  skipWs_cons_false (by decide) l

theorem skipWs_n (l : List Char) : skipWs ('n' :: l) = 'n' :: l :=
  skipWs_cons_false (by decide) l

theorem skipWs_nl (l : List Char) : skipWs ('\n' :: l) = skipWs l :=
  skipWs_cons_true (by decide) l

theorem lbrace_ne_n : (lbrace = 'n') = False := eq_false (by decide)

theorem lbrace_ne_quote : (lbrace = '\"') = False := eq_false (by decide)

theorem quote_ne_rbrace : ('\"' = rbrace) = False := eq_false (by decide)

theorem rbrace_ne_comma : (rbrace = ',') = False := eq_false (by decide)

theorem ws_nl_indent (ind : Nat) : ∀ c ∈ '\n' :: indentChars ind, isJsonWs c = true := by
  intro c hc
  rcases List.mem_cons.mp hc with h | h
  · subst h; decide
  · have hc2 : c = ' ' :=
      List.eq_of_mem_replicate (show c ∈ List.replicate (2 * ind) ' ' by
        simpa [indentChars] using h)
    subst hc2; decide

theorem skipWs_renderFields_head (k : String) (v : Json) (fs : JsonFields) (ind : Nat)
    (l : List Char) :
    ∃ t, skipWs (renderFields (.cons k v fs) ind ++ l) = '\"' :: t := by
  cases fs <;>
  · rw [renderFields]
    simp only [List.append_assoc]
    rw [skipWs_indentChars]
    simp only [renderString, List.cons_append]
    rw [skipWs_quote]
    exact ⟨_, rfl⟩

mutual

theorem parseVal_render (j : Json) :
    ∀ (ind : Nat) (pre rest : List Char) (fuel : Nat),
      (∀ c ∈ pre, isJsonWs c = true) → jsize j ≤ fuel →
      parseVal fuel (pre ++ (renderJson j ind ++ rest)) = some (j, rest) := by
  intro ind pre rest fuel hpre hfuel
  cases fuel with
  | zero => exact absurd hfuel (by have := jsize_pos j; omega)
  | succ fuel =>
    cases j with
    | null =>
      simp only [renderJson, List.cons_append, List.nil_append]
      simp only [parseVal]
      rw [skipWs_append hpre, skipWs_n]
      simp
    | str s =>
      simp only [renderJson, renderString, List.cons_append, List.nil_append,
        List.append_assoc]
      simp only [parseVal]
      rw [skipWs_append hpre, skipWs_quote]
      simp [parseStringBody_escape, string_mk_data]
    | obj fs =>
      cases fs with
      | nil =>
        simp only [renderJson, List.cons_append, List.nil_append]
        simp only [parseVal]
        rw [skipWs_append hpre, skipWs_lbrace]
        simp only [lbrace_ne_n, lbrace_ne_quote, ite_true, ite_false, if_false]
        rw [skipWs_rbrace]
        simp
      | cons k v fs =>
        simp only [renderJson, List.cons_append, List.nil_append, List.append_assoc]
        simp only [parseVal]
        rw [skipWs_append hpre]
        simp only [skipWs_lbrace, lbrace_ne_n, lbrace_ne_quote, ite_true, ite_false,
          if_false]
        obtain ⟨t, ht⟩ :=
          skipWs_renderFields_head k v fs (ind + 1)
            ('\n' :: (indentChars ind ++ rbrace :: rest))
        rw [skipWs_nl, ht]
        simp only [quote_ne_rbrace, ite_false, if_false]
        have hm :=
          parseMembers_render k v fs (ind + 1) ['\n'] ('\n' :: indentChars ind) rest fuel
            (by decide) (ws_nl_indent ind)
            (by simp only [jsize] at hfuel; omega)
        simp only [List.cons_append, List.nil_append, List.append_assoc] at hm
        rw [hm]
        simp
  termination_by _ _ _ fuel => fuel
  decreasing_by all_goals omega

theorem parseMembers_render (k : String) (v : Json) (fs : JsonFields) :
    ∀ (ind : Nat) (pre post rest : List Char) (fuel : Nat),
      (∀ c ∈ pre, isJsonWs c = true) → (∀ c ∈ post, isJsonWs c = true) →
      fsize (.cons k v fs) ≤ fuel →
      parseMembers fuel
          (pre ++ (renderFields (.cons k v fs) ind ++ (post ++ rbrace :: rest))) =
        some (.cons k v fs, rest) := by
  intro ind pre post rest fuel hpre hpost hfuel
  cases fuel with
  | zero => exfalso; simp only [fsize] at hfuel; omega
  | succ fuel =>
    cases fs with
    | nil =>
      simp only [renderFields, List.append_assoc]
      simp only [parseMembers]
      rw [skipWs_append hpre, skipWs_indentChars]
      simp only [renderString, List.cons_append, List.nil_append, List.append_assoc]
      simp only [skipWs_quote, ite_true]
      rw [parseStringBody_escape]
      simp only [skipWs_colon, ite_true]
      have hv :=
        parseVal_render v ind [' '] (post ++ rbrace :: rest) fuel (by decide)
          (by simp only [fsize] at hfuel; omega)
      simp only [List.cons_append, List.nil_append] at hv
      rw [hv]
      have hsk : skipWs (post ++ rbrace :: rest) = rbrace :: rest := by
        rw [skipWs_append hpost, skipWs_rbrace]
      simp only [hsk, rbrace_ne_comma, ite_false, if_false]
      simp [string_mk_data]
    | cons k2 v2 fs2 =>
      simp only [renderFields, List.append_assoc]
      simp only [parseMembers]
      rw [skipWs_append hpre, skipWs_indentChars]
      simp only [renderString, List.cons_append, List.nil_append, List.append_assoc]
      simp only [skipWs_quote, ite_true]
      rw [parseStringBody_escape]
      simp only [skipWs_colon, ite_true]
      have hv :=
        parseVal_render v ind [' ']
          (',' :: '\n' ::
            (renderFields (.cons k2 v2 fs2) ind ++ (post ++ rbrace :: rest))) fuel
          (by decide) (by simp only [fsize] at hfuel; omega)
      simp only [List.cons_append, List.nil_append] at hv
      rw [hv]
      simp only [skipWs_comma, ite_true]
      have hm :=
        parseMembers_render k2 v2 fs2 ind ['\n'] post rest fuel (by decide) hpost
          (by simp only [fsize] at hfuel ⊢; omega)
      simp only [List.cons_append, List.nil_append] at hm
      rw [hm]
      simp [string_mk_data]
  termination_by _ _ _ _ fuel => fuel
  decreasing_by all_goals omega

end

theorem render_size_aux (n : Nat) :
    (∀ j : Json, jsize j ≤ n → ∀ ind, jsize j ≤ (renderJson j ind).length) ∧
    (∀ (k : String) (v : Json) (fs : JsonFields),
      fsize (.cons k v fs) ≤ n → ∀ ind,
      fsize (.cons k v fs) ≤ (renderFields (.cons k v fs) ind).length) := by
  induction n with
  | zero =>
    constructor
    · intro j hj; exact absurd hj (by have := jsize_pos j; omega)
    · intro k v fs hf; exfalso; simp only [fsize] at hf; omega
  | succ n ih =>
    constructor
    · intro j hj ind
      cases j with
      | null => simp [jsize, renderJson]
      | str s => simp [jsize, renderJson, renderString]
      | obj fs =>
        cases fs with
        | nil => simp [jsize, fsize, renderJson]
        | cons k v fs =>
          have h1 : fsize (.cons k v fs) ≤ n := by
            simp only [jsize] at hj; omega
          have h2 := ih.2 k v fs h1 (ind + 1)
          simp only [jsize, renderJson, List.length_cons, List.length_append]
          omega
    · intro k v fs hf ind
      have hv : jsize v ≤ n := by simp only [fsize] at hf; omega
      have h1 := ih.1 v hv ind
      cases fs with
      | nil =>
        simp only [fsize, renderFields, List.length_append, List.length_cons,
          renderString]
        omega
      | cons k2 v2 fs2 =>
        have h2 : fsize (.cons k2 v2 fs2) ≤ n := by
          simp only [fsize] at hf ⊢; omega
        have h3 := ih.2 k2 v2 fs2 h2 ind
        simp only [fsize, renderFields, List.length_append, List.length_cons,
          renderString] at h3 ⊢
        omega

theorem jsize_le_render (j : Json) (ind : Nat) :
    jsize j ≤ (renderJson j ind).length :=
  (render_size_aux (jsize j)).1 j le_rfl ind

/-- The central text-layer round trip: parsing a pretty-rendered JSON
document recovers the document. -/
theorem parseJsonText_render (j : Json) : parseJsonText (renderJson j 0) = some j := by
  have h :=
    parseVal_render j 0 [] [] ((renderJson j 0).length + 1) (by simp)
      (by have := jsize_le_render j 0; omega)
  simp only [List.nil_append, List.append_nil] at h
  rw [parseJsonText, h]
  simp [skipWs]

/-!
### UTF-8 byte layer

`serde_json::to_writer_pretty` writes the UTF-8 bytes of the rendered
text, and `serde_json::from_slice` reads UTF-8 bytes back.  Bytes are
`Nat`s below 256.
-/

/-- UTF-8 encoding of one Unicode scalar value. -/
def utf8EncodeChar (c : Char) : List Nat :=
  let n := c.toNat
  if n < 128 then [n]
  else if n < 2048 then [192 + n / 64, 128 + n % 64]
  else if n < 65536 then [224 + n / 4096, 128 + n / 64 % 64, 128 + n % 64]
  else [240 + n / 262144, 128 + n / 4096 % 64, 128 + n / 64 % 64, 128 + n % 64]

/-- UTF-8 encoding of a character list. -/
def utf8Encode : List Char → List Nat
  | [] => []
  | c :: cs => utf8EncodeChar c ++ utf8Encode cs

/-- Decode one UTF-8 encoded scalar value from the front of a byte
list: rejects stray or missing continuation bytes, overlong encodings,
surrogate code points and out-of-range values, as Rust's string
decoding does. -/
def utf8DecodeOne : List Nat → Option (Char × List Nat)
  | [] => none
  | b :: rest =>
    if b < 128 then some (Char.ofNat b, rest)
    else if b < 192 then none
    else if b < 224 then
      match rest with
      | b1 :: rest1 =>
        if 128 ≤ b1 ∧ b1 < 192 then
          if 128 ≤ (b - 192) * 64 + (b1 - 128) then
            some (Char.ofNat ((b - 192) * 64 + (b1 - 128)), rest1)
          else none
        else none
      | [] => none
    else if b < 240 then
      match rest with
      | b1 :: b2 :: rest1 =>
        if (128 ≤ b1 ∧ b1 < 192) ∧ (128 ≤ b2 ∧ b2 < 192) then
          if 2048 ≤ (b - 224) * 4096 + (b1 - 128) * 64 + (b2 - 128) ∧
              ((b - 224) * 4096 + (b1 - 128) * 64 + (b2 - 128) < 55296 ∨
                57343 < (b - 224) * 4096 + (b1 - 128) * 64 + (b2 - 128)) then
            some (Char.ofNat ((b - 224) * 4096 + (b1 - 128) * 64 + (b2 - 128)), rest1)
          else none
        else none
      | _ => none
    else if b < 248 then
      match rest with
      | b1 :: b2 :: b3 :: rest1 =>
        if (128 ≤ b1 ∧ b1 < 192) ∧ (128 ≤ b2 ∧ b2 < 192) ∧ (128 ≤ b3 ∧ b3 < 192) then
          if 65536 ≤ (b - 240) * 262144 + (b1 - 128) * 4096 + (b2 - 128) * 64 + (b3 - 128) ∧
              (b - 240) * 262144 + (b1 - 128) * 4096 + (b2 - 128) * 64 + (b3 - 128) <
                1114112 then
            some
              (Char.ofNat
                ((b - 240) * 262144 + (b1 - 128) * 4096 + (b2 - 128) * 64 + (b3 - 128)),
                rest1)
          else none
        else none
      | _ => none
    else none

/-- Decode a whole byte list scalar by scalar.  The fuel only bounds
the iteration (each step consumes at least one byte); `utf8Decode`
supplies enough for any input. -/
def utf8DecodeLoop : Nat → List Nat → Option (List Char)
  | _, [] => some []
  | 0, _ :: _ => none
  | fuel + 1, b :: rest =>
    match utf8DecodeOne (b :: rest) with
    | none => none
    | some (c, rest1) => (utf8DecodeLoop fuel rest1).map (fun cs => c :: cs)

/-- UTF-8 decoding of a byte list. -/
def utf8Decode (l : List Nat) : Option (List Char) :=
  utf8DecodeLoop l.length l

theorem char_valid_nat (c : Char) :
    c.toNat < 55296 ∨ (57343 < c.toNat ∧ c.toNat < 1114112) := by
  rcases c.valid with h | ⟨h1, h2⟩
  · exact Or.inl (UInt32.toNat_lt_of_lt (by decide) h)
  · exact Or.inr ⟨UInt32.lt_toNat_of_lt (by decide) h1, UInt32.toNat_lt_of_lt (by decide) h2⟩

theorem utf8DecodeOne_encodeChar (c : Char) (l : List Nat) :
    utf8DecodeOne (utf8EncodeChar c ++ l) = some (c, l) := by
  have hval := char_valid_nat c
  by_cases h1 : c.toNat < 128
  · rw [show utf8EncodeChar c = [c.toNat] by simp [utf8EncodeChar, h1]]
    simp [utf8DecodeOne, h1]
  · by_cases h2 : c.toNat < 2048
    · rw [show utf8EncodeChar c = [192 + c.toNat / 64, 128 + c.toNat % 64] by
        simp [utf8EncodeChar, h1, h2]]
      simp only [List.cons_append, List.nil_append]
      have ha1 : ¬ (192 + c.toNat / 64 < 128) := by omega
      have ha2 : ¬ (192 + c.toNat / 64 < 192) := by omega
      have ha3 : 192 + c.toNat / 64 < 224 := by omega
      have ha4 : 128 ≤ 128 + c.toNat % 64 := by omega
      have ha5 : 128 + c.toNat % 64 < 192 := by omega
      have hn : (192 + c.toNat / 64 - 192) * 64 + (128 + c.toNat % 64 - 128) = c.toNat := by
        omega
      have ha6 : 128 ≤ c.toNat := by omega
      simp [utf8DecodeOne, ha1, ha2, ha3, ha4, ha5, ha6]
      refine ⟨by omega, ?_⟩
      rw [show c.toNat / 64 * 64 + c.toNat % 64 = c.toNat by omega]
      exact Char.ofNat_toNat c
    · by_cases h3 : c.toNat < 65536
      · rw [show utf8EncodeChar c =
            [224 + c.toNat / 4096, 128 + c.toNat / 64 % 64, 128 + c.toNat % 64] by
          simp [utf8EncodeChar, h1, h2, h3]]
        simp only [List.cons_append, List.nil_append]
        have ha1 : ¬ (224 + c.toNat / 4096 < 128) := by omega
        have ha2 : ¬ (224 + c.toNat / 4096 < 192) := by omega
        have ha3 : ¬ (224 + c.toNat / 4096 < 224) := by omega
        have ha4 : 224 + c.toNat / 4096 < 240 := by omega
        have hb1 : 128 ≤ 128 + c.toNat / 64 % 64 := by omega
        have hb2 : 128 + c.toNat / 64 % 64 < 192 := by omega
        have hb3 : 128 ≤ 128 + c.toNat % 64 := by omega
        have hb4 : 128 + c.toNat % 64 < 192 := by omega
        have hn : (224 + c.toNat / 4096 - 224) * 4096 + (128 + c.toNat / 64 % 64 - 128) * 64 +
            (128 + c.toNat % 64 - 128) = c.toNat := by omega
        have hr1 : 2048 ≤ c.toNat := by omega
        have hr2 : c.toNat < 55296 ∨ 57343 < c.toNat := by omega
        simp [utf8DecodeOne, ha1, ha2, ha3, ha4, hb1, hb2, hb3, hb4]
        refine ⟨⟨by omega, by omega⟩, ?_⟩
        rw [show c.toNat / 4096 * 4096 + c.toNat / 64 % 64 * 64 + c.toNat % 64 = c.toNat by
          omega]
        exact Char.ofNat_toNat c
      · rw [show utf8EncodeChar c =
            [240 + c.toNat / 262144, 128 + c.toNat / 4096 % 64, 128 + c.toNat / 64 % 64,
              128 + c.toNat % 64] by
          simp [utf8EncodeChar, h1, h2, h3]]
        simp only [List.cons_append, List.nil_append]
        have ha1 : ¬ (240 + c.toNat / 262144 < 128) := by omega
        have ha2 : ¬ (240 + c.toNat / 262144 < 192) := by omega
        have ha3 : ¬ (240 + c.toNat / 262144 < 224) := by omega
        have ha4 : ¬ (240 + c.toNat / 262144 < 240) := by omega
        have ha5 : 240 + c.toNat / 262144 < 248 := by omega
        have hb1 : 128 ≤ 128 + c.toNat / 4096 % 64 := by omega
        have hb2 : 128 + c.toNat / 4096 % 64 < 192 := by omega
        have hb3 : 128 ≤ 128 + c.toNat / 64 % 64 := by omega
        have hb4 : 128 + c.toNat / 64 % 64 < 192 := by omega
        have hb5 : 128 ≤ 128 + c.toNat % 64 := by omega
        have hb6 : 128 + c.toNat % 64 < 192 := by omega
        have hn : (240 + c.toNat / 262144 - 240) * 262144 +
            (128 + c.toNat / 4096 % 64 - 128) * 4096 +
            (128 + c.toNat / 64 % 64 - 128) * 64 + (128 + c.toNat % 64 - 128) = c.toNat := by
          omega
        have hr1 : 65536 ≤ c.toNat := by omega
        have hr2 : c.toNat < 1114112 := by omega
        simp [utf8DecodeOne, ha1, ha2, ha3, ha4, ha5, hb1, hb2, hb3, hb4, hb5, hb6]
        refine ⟨⟨by omega, by omega⟩, ?_⟩
        rw [show c.toNat / 262144 * 262144 + c.toNat / 4096 % 64 * 4096 +
            c.toNat / 64 % 64 * 64 + c.toNat % 64 = c.toNat by omega]
        exact Char.ofNat_toNat c

theorem utf8EncodeChar_length_pos (c : Char) : 1 ≤ (utf8EncodeChar c).length := by
  rw [utf8EncodeChar]
  split_ifs <;> simp

theorem utf8DecodeLoop_encode (cs : List Char) :
    ∀ fuel : Nat, (utf8Encode cs).length ≤ fuel →
      utf8DecodeLoop fuel (utf8Encode cs) = some cs := by
  induction cs with
  | nil =>
    intro fuel _
    rw [show utf8Encode [] = [] from rfl]
    rw [utf8DecodeLoop.eq_def]
    simp
  | cons c cs ih =>
    intro fuel hfuel
    rw [utf8Encode] at hfuel ⊢
    obtain ⟨b, bs, hb⟩ :
        ∃ b bs, utf8EncodeChar c = b :: bs := by
      have := utf8EncodeChar_length_pos c
      cases hc : utf8EncodeChar c with
      | nil => rw [hc] at this; simp at this
      | cons b bs => exact ⟨b, bs, rfl⟩
    cases fuel with
    | zero =>
      exfalso
      have := utf8EncodeChar_length_pos c
      rw [List.length_append] at hfuel
      omega
    | succ fuel =>
      rw [hb, List.cons_append, utf8DecodeLoop]
      rw [← List.cons_append, ← hb, utf8DecodeOne_encodeChar]
      have hlen : (utf8Encode cs).length ≤ fuel := by
        have := utf8EncodeChar_length_pos c
        rw [List.length_append, hb] at hfuel
        simp at hfuel ⊢
        omega
      simp [ih fuel hlen]

theorem utf8Decode_encode (cs : List Char) : utf8Decode (utf8Encode cs) = some cs := by
  rw [utf8Decode]
  exact utf8DecodeLoop_encode cs _ le_rfl

/-!
### Base64 layer

Model of the `base64` crate's `STANDARD_NO_PAD` engine: standard
alphabet, no padding characters, and (as that engine's default decode
configuration requires) the trailing bits of a final partial group must
be zero.  Input and output are byte lists.
-/

/-- Byte value of the standard-alphabet base64 character for a sextet. -/
def b64Char (i : Nat) : Nat :=
  if i < 26 then 65 + i
  else if i < 52 then 97 + (i - 26)
  else if i < 62 then 48 + (i - 52)
  else if i = 62 then 43
  else 47

/-- Sextet for a base64 alphabet byte, if it is one. -/
def b64Index (b : Nat) : Option Nat :=
  if 65 ≤ b ∧ b ≤ 90 then some (b - 65)
  else if 97 ≤ b ∧ b ≤ 122 then some (b - 97 + 26)
  else if 48 ≤ b ∧ b ≤ 57 then some (b - 48 + 52)
  else if b = 43 then some 62
  else if b = 47 then some 63
  else none

/-- Unpadded standard base64 encoding: full 3-byte groups become 4
characters, a trailing group of 2 or 1 bytes becomes 3 or 2 characters. -/
def base64Encode : List Nat → List Nat
  | b0 :: b1 :: b2 :: rest =>
    b64Char (b0 / 4) :: b64Char (b0 % 4 * 16 + b1 / 16) ::
      b64Char (b1 % 16 * 4 + b2 / 64) :: b64Char (b2 % 64) :: base64Encode rest
  | [b0, b1] => [b64Char (b0 / 4), b64Char (b0 % 4 * 16 + b1 / 16), b64Char (b1 % 16 * 4)]
  | [b0] => [b64Char (b0 / 4), b64Char (b0 % 4 * 16)]
  | [] => []

/-- Unpadded standard base64 decoding: rejects non-alphabet bytes, a
leftover length of 1, and nonzero trailing bits in a final partial
group. -/
def base64Decode : List Nat → Option (List Nat)
  | c0 :: c1 :: c2 :: c3 :: rest =>
    match b64Index c0, b64Index c1, b64Index c2, b64Index c3 with
    | some i0, some i1, some i2, some i3 =>
      (base64Decode rest).map
        (fun tail =>
          (i0 * 4 + i1 / 16) :: (i1 % 16 * 16 + i2 / 4) :: (i2 % 4 * 64 + i3) :: tail)
    | _, _, _, _ => none
  | [c0, c1, c2] =>
    match b64Index c0, b64Index c1, b64Index c2 with
    | some i0, some i1, some i2 =>
      if i2 % 4 = 0 then some [i0 * 4 + i1 / 16, i1 % 16 * 16 + i2 / 4] else none
    | _, _, _ => none
  | [c0, c1] =>
    match b64Index c0, b64Index c1 with
    | some i0, some i1 =>
      if i1 % 16 = 0 then some [i0 * 4 + i1 / 16] else none
    | _, _ => none
  | [_] => none
  | [] => some []

theorem b64Index_b64Char : ∀ i : Nat, i < 64 → b64Index (b64Char i) = some i := by
  decide

theorem base64Decode_encode :
    ∀ l : List Nat, (∀ b ∈ l, b < 256) → base64Decode (base64Encode l) = some l := by
  intro l
  induction l using base64Encode.induct with
  | case1 b0 b1 b2 rest ih =>
    intro h
    have h0 : b0 < 256 := h _ (by simp)
    have h1 : b1 < 256 := h _ (by simp)
    have h2 : b2 < 256 := h _ (by simp)
    rw [base64Encode, base64Decode]
    rw [b64Index_b64Char _ (by omega), b64Index_b64Char _ (by omega),
      b64Index_b64Char _ (by omega), b64Index_b64Char _ (by omega)]
    have hrest := ih (fun b hb => h b (by simp [hb]))
    simp only [hrest, Option.map_some]
    refine congrArg some ?_
    refine List.cons_eq_cons.mpr ⟨by omega, List.cons_eq_cons.mpr ⟨by omega,
      List.cons_eq_cons.mpr ⟨by omega, rfl⟩⟩⟩
  | case2 b0 b1 =>
    intro h
    have h0 : b0 < 256 := h _ (by simp)
    have h1 : b1 < 256 := h _ (by simp)
    rw [base64Encode, base64Decode]
    rw [b64Index_b64Char _ (by omega), b64Index_b64Char _ (by omega),
      b64Index_b64Char _ (by omega)]
    have hz : b1 % 16 * 4 % 4 = 0 := by omega
    simp only [hz, eq_self_iff_true, if_true, ite_true]
    refine congrArg some ?_
    refine List.cons_eq_cons.mpr ⟨by omega, List.cons_eq_cons.mpr ⟨by omega, rfl⟩⟩
  | case3 b0 =>
    intro h
    have h0 : b0 < 256 := h _ (by simp)
    rw [base64Encode, base64Decode]
    rw [b64Index_b64Char _ (by omega), b64Index_b64Char _ (by omega)]
    have hz : b0 % 4 * 16 % 16 = 0 := by omega
    simp only [hz, eq_self_iff_true, if_true, ite_true]
    refine congrArg some ?_
    exact List.cons_eq_cons.mpr ⟨by omega, rfl⟩
  | case4 =>
    intro _
    rfl

/-!
### Frame layer

Embedding of `AsyncFrameWriter::write_frame` and
`AsyncFrameReader::read_frame` over byte lists.  The wire layout is the
8-byte big-endian total length, 4 reserved zero bytes, the 8-byte
big-endian magic constant, then the base64 body.  Each distinct error
site of the reader gets its own result constructor; `lengthUnderflow`
marks the `frame_length as usize - BASE_FRAME_SIZE` subtraction
underflowing (a panic in a debug build, a wrapping allocation attempt
in release), which is not an error return of the function.
-/

/-- The protocol's fixed magic constant (`0x575f504f4f4c`). -/
def MAGIC_NUMBER : Nat := 0x575f504f4f4c

/-- Header size: 8-byte length + 4 reserved bytes + 8-byte magic. -/
def BASE_FRAME_SIZE : Nat := 20

/-- Big-endian bytes written by `write_u64`; only the low 64 bits of
the argument are represented, which is exactly the `as u64` cast the
writer performs on the frame length. -/
def toBE8 (n : Nat) : List Nat :=
  [n / 2 ^ 56 % 256, n / 2 ^ 48 % 256, n / 2 ^ 40 % 256, n / 2 ^ 32 % 256,
    n / 2 ^ 24 % 256, n / 2 ^ 16 % 256, n / 2 ^ 8 % 256, n % 256]

/-- Value read back by `read_u64` from 8 big-endian bytes. -/
def fromBE8 : List Nat → Nat
  | [b0, b1, b2, b3, b4, b5, b6, b7] =>
    ((((((b0 * 256 + b1) * 256 + b2) * 256 + b3) * 256 + b4) * 256 + b5) * 256 + b6) * 256 +
      b7
  | _ => 0

theorem fromBE8_toBE8 (n : Nat) (h : n < 2 ^ 64) : fromBE8 (toBE8 n) = n := by
  rw [toBE8, fromBE8]
  omega

/-- Outcome of reading one frame from a byte stream.  `ok` carries the
decoded payload and the unconsumed remainder of the stream; the error
constructors record which check failed (all of them are `io::Error`s in
the source, raised at distinct sites). -/
inductive ReadFrameResult (α : Type) : Type where
  | ok : α → List Nat → ReadFrameResult α
  | ioError : ReadFrameResult α
  | protocolViolation : ReadFrameResult α
  | decodeError : ReadFrameResult α
  | lengthUnderflow : ReadFrameResult α
deriving DecidableEq

/-- `AsyncFrameWriter::write_frame`: serialize the payload to pretty
JSON (UTF-8 bytes), base64-encode it without padding, and emit
`[length][reserved][magic][body]`. -/
def write_frame {α : Type} (serialize : α → Json) (v : α) : List Nat :=
  let buffered := utf8Encode (renderJson (serialize v) 0)
  let encoded := base64Encode buffered
  let frame_length := BASE_FRAME_SIZE + encoded.length
  toBE8 frame_length ++ List.replicate 4 0 ++ toBE8 MAGIC_NUMBER ++ encoded

/-- `AsyncFrameReader::read_frame`: read the 20-byte header (length,
reserved, magic), reject on wrong magic before touching the body, then
size the body as `frame_length - 20`, read it, base64-decode and
JSON-decode it.  Short input at any read is `ioError`; a `frame_length`
below 20 underflows the body-size subtraction. -/
def read_frame {α : Type} (deserialize : Json → Option α) (input : List Nat) :
    ReadFrameResult α :=
  if input.length < 8 then .ioError
  else
    let frame_length := fromBE8 (input.take 8)
    let r1 := input.drop 8
    if r1.length < 4 then .ioError
    else
      let r2 := r1.drop 4
      if r2.length < 8 then .ioError
      else
        let magic := fromBE8 (r2.take 8)
        let r3 := r2.drop 8
        if magic ≠ MAGIC_NUMBER then .protocolViolation
        else if frame_length < BASE_FRAME_SIZE then .lengthUnderflow
        else
          let bodyLen := frame_length - BASE_FRAME_SIZE
          if r3.length < bodyLen then .ioError
          else
            match base64Decode (r3.take bodyLen) with
            | none => .decodeError
            | some decoded =>
              match utf8Decode decoded with
              | none => .decodeError
              | some chars =>
                match parseJsonText chars with
                | none => .decodeError
                | some j =>
                  match deserialize j with
                  | none => .decodeError
                  | some v => .ok v (r3.drop bodyLen)

theorem utf8EncodeChar_lt_256 (c : Char) : ∀ b ∈ utf8EncodeChar c, b < 256 := by
  have hval := char_valid_nat c
  intro b hb
  rw [utf8EncodeChar] at hb
  split_ifs at hb <;> simp at hb <;> omega

theorem utf8Encode_lt_256 (cs : List Char) : ∀ b ∈ utf8Encode cs, b < 256 := by
  induction cs with
  | nil => intro b hb; simp [utf8Encode] at hb
  | cons c cs ih =>
    intro b hb
    rw [utf8Encode, List.mem_append] at hb
    rcases hb with h | h
    · exact utf8EncodeChar_lt_256 c b h
    · exact ih b h

/-- Generic frame round trip: writing any payload whose typed JSON
decoding inverts its encoding and reading it back from the produced
bytes (followed by anything) yields the payload and consumes exactly
the frame. -/
theorem read_write_frame {α : Type} (serialize : α → Json) (deserialize : Json → Option α)
    (hinv : ∀ v, deserialize (serialize v) = some v) (v : α) (rest : List Nat)
    (hlen :
      BASE_FRAME_SIZE + (base64Encode (utf8Encode (renderJson (serialize v) 0))).length <
        2 ^ 64) :
    read_frame deserialize (write_frame serialize v ++ rest) = .ok v rest := by
  have hroundJ := parseJsonText_render (serialize v)
  have hround64 : utf8Decode (utf8Encode (renderJson (serialize v) 0)) =
      some (renderJson (serialize v) 0) := utf8Decode_encode _
  have hroundB : base64Decode (base64Encode (utf8Encode (renderJson (serialize v) 0))) =
      some (utf8Encode (renderJson (serialize v) 0)) :=
    base64Decode_encode _ (utf8Encode_lt_256 _)
  unfold write_frame read_frame
  simp only [List.append_assoc]
  set CH := renderJson (serialize v) 0 with hCH
  set U := utf8Encode CH with hU
  set E := base64Encode U with hEdef
  set L := BASE_FRAME_SIZE + E.length with hLdef
  have h8 : (toBE8 L).length = 8 := rfl
  have hb4 : (List.replicate 4 (0 : Nat)).length = 4 := rfl
  have hm8 : (toBE8 MAGIC_NUMBER).length = 8 := rfl
  rw [if_neg (by rw [List.length_append, h8]; omega)]
  rw [List.take_left' h8, List.drop_left' h8]
  rw [fromBE8_toBE8 L hlen]
  rw [if_neg (by rw [List.length_append, hb4]; omega)]
  rw [List.drop_left' hb4]
  rw [if_neg (by rw [List.length_append, hm8]; omega)]
  rw [List.take_left' hm8, List.drop_left' hm8]
  rw [fromBE8_toBE8 MAGIC_NUMBER (by norm_num [MAGIC_NUMBER])]
  rw [if_neg (by simp)]
  rw [if_neg (show ¬ L < BASE_FRAME_SIZE by rw [hLdef]; omega)]
  rw [show L - BASE_FRAME_SIZE = E.length by rw [hLdef]; omega]
  rw [if_neg (by rw [List.length_append]; omega)]
  rw [List.take_left, List.drop_left]
  rw [hroundB]
  simp only [hround64, hroundJ, hinv]

/-!
### Payload data model

The message and cluster types from `message.rs` and `cluster_impl.rs`.
`uuid::Uuid` is embedded as its canonical string form (the uuid crate
serializes a uuid as exactly that string, and compares uuids by byte
order, which on the canonical form is string order); `SocketAddr` as
its display string, which is how it serializes.  The Rust `HashMap`s
(headers, members) are embedded as association lists in iteration
order.
-/

/-- Model of `uuid::Uuid` (canonical hyphenated string form). -/
abbrev Uuid : Type := String

/-- Model of `std::net::SocketAddr` (display string form). -/
abbrev SocketAddr : Type := String

/-- `Cluster` from `cluster_impl.rs`: cluster id, manager node id, and
the member map `HashMap<Uuid, SocketAddr>`. -/
structure Cluster where
  id : Uuid
  manager : Uuid
  members : List (Uuid × SocketAddr)
deriving DecidableEq

/-- `RequestBody` from `message.rs`. -/
inductive RequestBody : Type where
  | Ping : RequestBody
  | GetInfo : RequestBody
  | ConnectToCluster : SocketAddr → RequestBody
deriving DecidableEq

/-- `Request` from `message.rs`: optional origin node id, headers, body. -/
structure Request where
  node : Option Uuid
  headers : List (String × String)
  body : RequestBody
deriving DecidableEq

/-- `ResponseBody` from `message.rs`. -/
inductive ResponseBody : Type where
  | Err : String → ResponseBody
  | Ok : ResponseBody
  | Pong : ResponseBody
  | NodeInfo : Uuid → Option Cluster → ResponseBody
deriving DecidableEq

/-- `Response` from `message.rs`: headers and body. -/
structure Response where
  headers : List (String × String)
  body : ResponseBody
deriving DecidableEq

/-!
### Serde encoding of the payload types

These mirror what `#[derive(Serialize, Deserialize)]` produces with
serde_json: structs are objects with the fields in declaration order,
unit enum variants are bare strings, newtype/struct variants are
single-field objects keyed by the variant name, `Option` is `null` or
the value, and string-keyed maps are objects.  Decoding looks fields up
by name (serde accepts any order and ignores unknown fields).
-/

/-- Serialize a string-to-string map in iteration order. -/
def strMapToFields : List (String × String) → JsonFields
  | [] => .nil
  | (k, v) :: rest => .cons k (.str v) (strMapToFields rest)

/-- Deserialize a JSON object's fields as a string-to-string map. -/
def fieldsToStrMap : JsonFields → Option (List (String × String))
  | .nil => some []
  | .cons k (.str v) rest => (fieldsToStrMap rest).map (fun m => (k, v) :: m)
  | .cons _ _ _ => none

/-- Look a field up by name (first occurrence). -/
def JsonFields.lookup : JsonFields → String → Option Json
  | .nil, _ => none
  | .cons k v rest, key => if k = key then some v else rest.lookup key

/-- Serialization of `Option<Uuid>`. -/
def optUuidToJson : Option Uuid → Json
  | none => .null
  | some u => .str u

/-- Deserialization of `Option<Uuid>`. -/
def optUuidFromJson : Json → Option (Option Uuid)
  | .null => some none
  | .str u => some (some u)
  | _ => none

/-- Serialization of `Cluster`. -/
def Cluster.toJson (c : Cluster) : Json :=
  .obj (.cons "id" (.str c.id)
    (.cons "manager" (.str c.manager)
      (.cons "members" (.obj (strMapToFields c.members)) .nil)))

/-- Deserialization of `Cluster`. -/
def Cluster.fromJson : Json → Option Cluster
  | .obj fs =>
    match fs.lookup "id", fs.lookup "manager", fs.lookup "members" with
    | some (.str i), some (.str m), some (.obj mem) =>
      (fieldsToStrMap mem).map (fun members => ⟨i, m, members⟩)
    | _, _, _ => none
  | _ => none

/-- Serialization of `Option<Cluster>`. -/
def optClusterToJson : Option Cluster → Json
  | none => .null
  | some c => c.toJson

/-- Deserialization of `Option<Cluster>`. -/
def optClusterFromJson : Json → Option (Option Cluster)
  | .null => some none
  | .obj fs => (Cluster.fromJson (.obj fs)).map some
  | _ => none

/-- Serialization of `RequestBody` (externally tagged enum). -/
def RequestBody.toJson : RequestBody → Json
  | .Ping => .str "Ping"
  | .GetInfo => .str "GetInfo"
  | .ConnectToCluster a =>
    .obj (.cons "ConnectToCluster" (.obj (.cons "socket_addr" (.str a) .nil)) .nil)

/-- Deserialization of `RequestBody`. -/
def RequestBody.fromJson : Json → Option RequestBody
  | .str s =>
    if s = "Ping" then some .Ping
    else if s = "GetInfo" then some .GetInfo
    else none
  | .obj (.cons k payload .nil) =>
    if k = "ConnectToCluster" then
      match payload with
      | .obj pf =>
        match pf.lookup "socket_addr" with
        | some (.str a) => some (.ConnectToCluster a)
        | _ => none
      | _ => none
    else none
  | _ => none

/-- Serialization of `Request` (fields in declaration order). -/
def Request.toJson (r : Request) : Json :=
  .obj (.cons "node" (optUuidToJson r.node)
    (.cons "headers" (.obj (strMapToFields r.headers))
      (.cons "body" r.body.toJson .nil)))

/-- Deserialization of `Request`. -/
def Request.fromJson : Json → Option Request
  | .obj fs =>
    match fs.lookup "node", fs.lookup "headers", fs.lookup "body" with
    | some nj, some (.obj hf), some bj =>
      match optUuidFromJson nj, fieldsToStrMap hf, RequestBody.fromJson bj with
      | some n, some hs, some b => some ⟨n, hs, b⟩
      | _, _, _ => none
    | _, _, _ => none
  | _ => none

/-- Serialization of `ResponseBody` (externally tagged enum). -/
def ResponseBody.toJson : ResponseBody → Json
  | .Err m => .obj (.cons "Err" (.str m) .nil)
  | .Ok => .str "Ok"
  | .Pong => .str "Pong"
  | .NodeInfo n c =>
    .obj (.cons "NodeInfo"
      (.obj (.cons "node" (.str n) (.cons "cluster" (optClusterToJson c) .nil))) .nil)

/-- Deserialization of `ResponseBody`. -/
def ResponseBody.fromJson : Json → Option ResponseBody
  | .str s =>
    if s = "Ok" then some .Ok
    else if s = "Pong" then some .Pong
    else none
  | .obj (.cons k payload .nil) =>
    if k = "Err" then
      match payload with
      | .str m => some (.Err m)
      | _ => none
    else if k = "NodeInfo" then
      match payload with
      | .obj pf =>
        match pf.lookup "node", pf.lookup "cluster" with
        | some (.str n), some cj => (optClusterFromJson cj).map (fun c => .NodeInfo n c)
        | _, _ => none
      | _ => none
    else none
  | _ => none

/-- Serialization of `Response`. -/
def Response.toJson (r : Response) : Json :=
  .obj (.cons "headers" (.obj (strMapToFields r.headers))
    (.cons "body" r.body.toJson .nil))

/-- Deserialization of `Response`. -/
def Response.fromJson : Json → Option Response
  | .obj fs =>
    match fs.lookup "headers", fs.lookup "body" with
    | some (.obj hf), some bj =>
      match fieldsToStrMap hf, ResponseBody.fromJson bj with
      | some hs, some b => some ⟨hs, b⟩
      | _, _ => none
    | _, _ => none
  | _ => none

theorem fieldsToStrMap_strMapToFields (l : List (String × String)) :
    fieldsToStrMap (strMapToFields l) = some l := by
  induction l with
  | nil => rfl
  | cons p rest ih =>
    obtain ⟨k, v⟩ := p
    rw [strMapToFields, fieldsToStrMap, ih]
    rfl

theorem cluster_fromJson_toJson (c : Cluster) : Cluster.fromJson c.toJson = some c := by
  rw [Cluster.toJson, Cluster.fromJson]
  simp [JsonFields.lookup, fieldsToStrMap_strMapToFields]

theorem optClusterFromJson_toJson (c : Option Cluster) :
    optClusterFromJson (optClusterToJson c) = some c := by
  cases c with
  | none => rfl
  | some c =>
    rw [optClusterToJson, Cluster.toJson, optClusterFromJson, ← Cluster.toJson,
      cluster_fromJson_toJson]
    rfl

theorem requestBody_fromJson_toJson (b : RequestBody) :
    RequestBody.fromJson b.toJson = some b := by
  cases b with
  | Ping => rfl
  | GetInfo => rfl
  | ConnectToCluster a =>
    rw [RequestBody.toJson, RequestBody.fromJson]
    simp [JsonFields.lookup]

theorem request_fromJson_toJson (r : Request) : Request.fromJson r.toJson = some r := by
  rw [Request.toJson, Request.fromJson]
  simp [JsonFields.lookup, fieldsToStrMap_strMapToFields, requestBody_fromJson_toJson]
  cases r with
  | mk n hs b => cases n <;> simp [optUuidToJson, optUuidFromJson]

theorem responseBody_fromJson_toJson (b : ResponseBody) :
    ResponseBody.fromJson b.toJson = some b := by
  cases b with
  | Err m => rfl
  | Ok => rfl
  | Pong => rfl
  | NodeInfo n c =>
    rw [ResponseBody.toJson, ResponseBody.fromJson]
    simp [JsonFields.lookup, optClusterFromJson_toJson]

theorem response_fromJson_toJson (r : Response) : Response.fromJson r.toJson = some r := by
  rw [Response.toJson, Response.fromJson]
  simp [JsonFields.lookup, fieldsToStrMap_strMapToFields, responseBody_fromJson_toJson]

/-!
### Claims about the frame codec
-/

/-- C4: For every `Request` value and every `Response` value (all body
variants, any headers, any optional origin id), writing the value as a
frame with `AsyncFrameWriter::write_frame` and then reading it back
with `AsyncFrameReader::read_frame` from the produced byte sequence
yields a value equal to the original (and consumes exactly the frame).
The hypothesis on each part is the machine-width bound on the frame
length, which in the program holds for any buffer that can exist
(`usize` lengths are below `2 ^ 64`). -/
theorem c4_frame_roundtrip :
    (∀ (r : Request) (rest : List Nat),
      BASE_FRAME_SIZE +
          (base64Encode (utf8Encode (renderJson (Request.toJson r) 0))).length < 2 ^ 64 →
      read_frame Request.fromJson (write_frame Request.toJson r ++ rest) = .ok r rest) ∧
    (∀ (s : Response) (rest : List Nat),
      BASE_FRAME_SIZE +
          (base64Encode (utf8Encode (renderJson (Response.toJson s) 0))).length < 2 ^ 64 →
      read_frame Response.fromJson (write_frame Response.toJson s ++ rest) = .ok s rest) :=
  ⟨fun r rest hlen =>
    read_write_frame Request.toJson Request.fromJson request_fromJson_toJson r rest hlen,
   fun s rest hlen =>
    read_write_frame Response.toJson Response.fromJson response_fromJson_toJson s rest hlen⟩

/-- Witness for C4 at a concrete `Ping` request and a concrete `Ok`
response. -/
theorem c4_frame_roundtrip_witness :
    read_frame Request.fromJson
        (write_frame Request.toJson (Request.mk none [] .Ping) ++ []) =
      .ok (Request.mk none [] .Ping) [] ∧
    read_frame Response.fromJson
        (write_frame Response.toJson (Response.mk [] .Ok) ++ []) =
      .ok (Response.mk [] .Ok) [] :=
  ⟨c4_frame_roundtrip.1 (Request.mk none [] .Ping) [] (by decide),
   c4_frame_roundtrip.2 (Response.mk [] .Ok) [] (by decide)⟩

/-- C6: For every input byte stream whose 20-byte frame header carries
a magic field different from `MAGIC_NUMBER`, `read_frame` returns the
protocol-violation error, whatever bytes follow the header (so no body
byte is read or decoded and no payload is produced). -/
theorem c6_bad_magic_rejected {α : Type} (deserialize : Json → Option α)
    (header rest : List Nat) (hlen : header.length = 20)
    (hmagic : fromBE8 ((header.drop 12).take 8) ≠ MAGIC_NUMBER) :
    read_frame deserialize (header ++ rest) = .protocolViolation := by
  have h12 : (header.drop 12).length = 8 := by rw [List.length_drop, hlen]
  unfold read_frame
  rw [if_neg (by rw [List.length_append, hlen]; omega)]
  rw [List.drop_append_of_le_length (by omega)]
  rw [if_neg (by rw [List.length_append, List.length_drop, hlen]; omega)]
  rw [List.drop_append_of_le_length (by rw [List.length_drop, hlen]; omega)]
  rw [List.drop_drop]
  rw [if_neg (by rw [List.length_append, List.length_drop, hlen]; omega)]
  rw [List.take_append_of_le_length (by rw [List.length_drop]; omega)]
  rw [if_pos hmagic]

/-- Witness for C6: an all-zero 20-byte header (magic zero) followed by
nothing is rejected as a protocol violation. -/
theorem c6_bad_magic_rejected_witness :
    read_frame Request.fromJson (List.replicate 20 0 ++ []) = .protocolViolation :=
  c6_bad_magic_rejected Request.fromJson (List.replicate 20 0) [] (by decide) (by decide)

/-- C9: `read_frame` checks only the magic field of the header and
never that the 8-byte total-length field is at least 20: on any input
whose header carries the correct magic but a total length below 20, the
body-size computation `frame_length - BASE_FRAME_SIZE` underflows (the
`lengthUnderflow` outcome, a usize-subtraction underflow in the source,
not a malformed-frame error return). -/
theorem c9_short_length_underflow {α : Type} (deserialize : Json → Option α)
    (header rest : List Nat) (hlen : header.length = 20)
    (hmagic : fromBE8 ((header.drop 12).take 8) = MAGIC_NUMBER)
    (hshort : fromBE8 (header.take 8) < 20) :
    read_frame deserialize (header ++ rest) = .lengthUnderflow := by
  unfold read_frame
  rw [if_neg (by rw [List.length_append, hlen]; omega)]
  rw [List.take_append_of_le_length (by omega)]
  rw [List.drop_append_of_le_length (by omega)]
  rw [if_neg (by rw [List.length_append, List.length_drop, hlen]; omega)]
  rw [List.drop_append_of_le_length (by rw [List.length_drop, hlen]; omega)]
  rw [List.drop_drop]
  rw [if_neg (by rw [List.length_append, List.length_drop, hlen]; omega)]
  rw [List.take_append_of_le_length (by rw [List.length_drop]; omega)]
  rw [if_neg (not_ne_iff.mpr hmagic)]
  rw [if_pos (by simpa [BASE_FRAME_SIZE] using hshort)]

/-- Witness for C9: a header declaring total length 10 with correct
magic drives the reader into the underflowing subtraction. -/
theorem c9_short_length_underflow_witness :
    read_frame Request.fromJson
        ((toBE8 10 ++ List.replicate 4 0 ++ toBE8 MAGIC_NUMBER) ++ []) =
      .lengthUnderflow :=
  c9_short_length_underflow Request.fromJson
    (toBE8 10 ++ List.replicate 4 0 ++ toBE8 MAGIC_NUMBER) []
    (by decide) (by decide) (by decide)

/-!
### Builders (message.rs) and the assert helper (whirlpool-common)
-/

/-- `assert_that` from `whirlpool-common/src/util/asserts.rs`: result is
`Ok(())` when the predicate holds, the given error otherwise. -/
def assert_that {ε : Type} (predicate : Bool) (error : ε) : Except ε Unit :=
  if predicate then .ok () else .error error

/-- `BuildRequestError` from `message.rs`. -/
inductive BuildRequestError : Type where
  | NoNodeSet : BuildRequestError
  | NoBodySet : BuildRequestError
deriving DecidableEq

/-- `BuildResponseError` from `message.rs`. -/
inductive BuildResponseError : Type where
  | NoBodySet : BuildResponseError
deriving DecidableEq

/-- `RequestBuilder` from `message.rs`. -/
structure RequestBuilder where
  node : Option Uuid
  headers : List (String × String)
  body : Option RequestBody
deriving DecidableEq

/-- `RequestBuilder::new` / `Default`. -/
def RequestBuilder.new : RequestBuilder := ⟨none, [], none⟩

/-- `RequestBuilder::body`. -/
def RequestBuilder.withBody (b : RequestBuilder) (body : RequestBody) : RequestBuilder :=
  { b with body := some body }

/-- `RequestBuilder::finish`: `assert_that(self.body.is_some(), NoBodySet)?`
followed by `self.body.unwrap()` — i.e. the error exactly when no body
was set, the assembled `Request` otherwise. -/
def RequestBuilder.finish (b : RequestBuilder) : Except BuildRequestError Request :=
  match assert_that b.body.isSome BuildRequestError.NoBodySet, b.body with
  | .error e, _ => .error e
  | .ok _, some body => .ok ⟨b.node, b.headers, body⟩
  | .ok _, none => .error .NoBodySet

/-- `ResponseBuilder` from `message.rs`. -/
structure ResponseBuilder where
  headers : List (String × String)
  body : Option ResponseBody
deriving DecidableEq

/-- `ResponseBuilder::new` / `Default`. -/
def ResponseBuilder.new : ResponseBuilder := ⟨[], none⟩

/-- `ResponseBuilder::body`. -/
def ResponseBuilder.withBody (b : ResponseBuilder) (body : ResponseBody) : ResponseBuilder :=
  { b with body := some body }

/-- `ResponseBuilder::finish` (same shape as the request builder's). -/
def ResponseBuilder.finish (b : ResponseBuilder) : Except BuildResponseError Response :=
  match assert_that b.body.isSome BuildResponseError.NoBodySet, b.body with
  | .error e, _ => .error e
  | .ok _, some body => .ok ⟨b.headers, body⟩
  | .ok _, none => .error .NoBodySet

/-- `Response::ok()`: `builder().body(Ok).finish().unwrap()`. -/
def Response.okResp : Response := ⟨[], .Ok⟩

/-- C7: For every `RequestBuilder` and every `ResponseBuilder`,
`finish()` returns the no-body-set validation error exactly when no
body was supplied, and returns the successfully constructed `Request`
or `Response` whenever a body was supplied, regardless of headers and
origin node id. -/
theorem c7_finish_requires_body :
    (∀ (n : Option Uuid) (hs : List (String × String)),
      (RequestBuilder.mk n hs none).finish = .error .NoBodySet) ∧
    (∀ (n : Option Uuid) (hs : List (String × String)) (b : RequestBody),
      (RequestBuilder.mk n hs (some b)).finish = .ok (Request.mk n hs b)) ∧
    (∀ hs : List (String × String),
      (ResponseBuilder.mk hs none).finish = .error .NoBodySet) ∧
    (∀ (hs : List (String × String)) (b : ResponseBody),
      (ResponseBuilder.mk hs (some b)).finish = .ok (Response.mk hs b)) :=
  ⟨fun _ _ => rfl, fun _ _ _ => rfl, fun _ => rfl, fun _ _ => rfl⟩

/-!
### Persistence store (persist.rs)

The store is embedded together with the file it flushes to: the file's
content is an explicit `Option (List Nat)` (absent, or the bytes on
disk), and every mutating operation returns the bytes it synchronously
flushed (the JSON serialization of the whole record, exactly as
`Persist::flush` writes it).
-/

/-- `PersistInner` from `persist.rs`: the durable record. -/
structure PersistInner where
  node_id : Option Uuid
  cluster : Option Cluster
deriving DecidableEq

/-- Serialization of `PersistInner` (fields in declaration order). -/
def PersistInner.toJson (i : PersistInner) : Json :=
  .obj (.cons "node_id" (optUuidToJson i.node_id)
    (.cons "cluster" (optClusterToJson i.cluster) .nil))

/-- Deserialization of `PersistInner`. -/
def PersistInner.fromJson : Json → Option PersistInner
  | .obj fs =>
    match fs.lookup "node_id", fs.lookup "cluster" with
    | some nj, some cj =>
      match optUuidFromJson nj, optClusterFromJson cj with
      | some n, some c => some ⟨n, c⟩
      | _, _ => none
    | _, _ => none
  | _ => none

theorem persistInner_fromJson_toJson (i : PersistInner) :
    PersistInner.fromJson i.toJson = some i := by
  obtain ⟨n, c⟩ := i
  rw [PersistInner.toJson, PersistInner.fromJson]
  simp only [JsonFields.lookup]
  cases n <;> simp [optUuidToJson, optUuidFromJson, optClusterFromJson_toJson]

/-- The bytes `Persist::flush` writes: the pretty JSON serialization of
the whole record, UTF-8 encoded. -/
def PersistInner.flushBytes (i : PersistInner) : List Nat :=
  utf8Encode (renderJson i.toJson 0)

/-- `Persist` from `persist.rs` (the path is carried implicitly: the
file content is passed to `open` and returned by the mutators). -/
structure Persist where
  inner : PersistInner
deriving DecidableEq

/-- Decode failure of `Persist::open` (an `io::Error` in the source). -/
inductive OpenError : Type where
  | decodeError : OpenError
deriving DecidableEq

/-- `Persist::open`: a missing file yields the default (empty) record
without error; an existing file is deserialized from JSON, failing with
a decode error on corruption. -/
def Persist.open (file : Option (List Nat)) : Except OpenError Persist :=
  match file with
  | none => .ok ⟨⟨none, none⟩⟩
  | some bytes =>
    match utf8Decode bytes with
    | none => .error .decodeError
    | some chars =>
      match parseJsonText chars with
      | none => .error .decodeError
      | some j =>
        match PersistInner.fromJson j with
        | none => .error .decodeError
        | some inner => .ok ⟨inner⟩

/-- `Persist::node_id`. -/
def Persist.node_id (p : Persist) : Option Uuid := p.inner.node_id

/-- `Persist::cluster`. -/
def Persist.cluster (p : Persist) : Option Cluster := p.inner.cluster

/-- `Persist::set_node_id`: set the id and synchronously flush the
whole record; the flushed bytes are returned alongside the new state. -/
def Persist.set_node_id (p : Persist) (id : Uuid) : Persist × List Nat :=
  (⟨⟨some id, p.inner.cluster⟩⟩, PersistInner.flushBytes ⟨some id, p.inner.cluster⟩)

/-- `Persist::set_cluster`: set the cluster and synchronously flush. -/
def Persist.set_cluster (p : Persist) (c : Cluster) : Persist × List Nat :=
  (⟨⟨p.inner.node_id, some c⟩⟩, PersistInner.flushBytes ⟨p.inner.node_id, some c⟩)

/-- `Persist::modify_cluster`: apply the callback and flush only if a
cluster is present (no flush, no change otherwise). -/
def Persist.modify_cluster (p : Persist) (callback : Cluster → Cluster) :
    Persist × Option (List Nat) :=
  match p.inner.cluster with
  | some c =>
    (⟨⟨p.inner.node_id, some (callback c)⟩⟩,
      some (PersistInner.flushBytes ⟨p.inner.node_id, some (callback c)⟩))
  | none => (p, none)

/-- C8: `Persist::open` at a missing path returns, without error, a
record with no node id and no cluster; and after `set_node_id id`
(which synchronously flushes the whole record), reopening a store from
the flushed bytes yields a record whose node id is `id` (and whose
cluster is unchanged). -/
theorem c8_persist_open_empty_and_set_reopen :
    (Persist.open none = .ok ⟨⟨none, none⟩⟩) ∧
    (∀ (p : Persist) (id : Uuid),
      Persist.open (some (p.set_node_id id).2) = .ok ⟨⟨some id, p.inner.cluster⟩⟩) := by
  constructor
  · rfl
  · intro p id
    rw [Persist.set_node_id]
    rw [Persist.open]
    rw [PersistInner.flushBytes, utf8Decode_encode]
    simp only [parseJsonText_render, persistInner_fromJson_toJson]

/-!
### Roles (roles.rs) and node configuration (config.rs)
-/

/-- `Role` from `roles.rs`. -/
inductive Role : Type where
  | ClusterManager : Role
  | Client : Role
  | Data : Role
deriving DecidableEq

/-- `RoleSet` from `roles.rs` (a `HashSet<Role>`, embedded as the list
of its elements). -/
structure RoleSet where
  set : List Role
deriving DecidableEq

/-- `RoleSet::has_role`. -/
def RoleSet.has_role (rs : RoleSet) (role : Role) : Bool :=
  rs.set.contains role

/-- `RoleSet::is_empty`. -/
def RoleSet.is_empty (rs : RoleSet) : Bool :=
  rs.set.isEmpty

/-- `Node` from `node.rs` (the runtime state fields). -/
structure Node where
  id : Uuid
  roles : RoleSet
  bind_address : String
  comms_port : Nat
  client_port : Nat
  persist : Persist
  timeout : Option Nat
  comms_socket : Option SocketAddr
deriving DecidableEq

/-- `NodeConfig` from `config.rs` (the persistence path is implicit:
the file content at that path is an argument of `build_node`). -/
structure NodeConfig where
  roles : RoleSet
  bind_address : String
  timeout : Option Nat
  cluster_addrs : List SocketAddr
  comms_port : Nat
  client_port : Nat
deriving DecidableEq

/-- `BuildNodeError` from `config.rs`. -/
inductive BuildNodeError : Type where
  | NoRolesSet : BuildNodeError
  | CommsAndClientOnSamePort : Nat → BuildNodeError
  | IoError : OpenError → BuildNodeError
deriving DecidableEq

/-- `NodeConfig::build_node`: open the persist file, generate and
synchronously persist a fresh node id if none is stored (the fresh v4
uuid is the `freshId` argument), and only then validate the role set
and the two ports.  Returns the build result together with the file
content after the call.  The node id unwrap in the source is modelled
by `getD freshId`, which agrees with it on every reachable path (the
id is always present at that point). -/
def NodeConfig.build_node (cfg : NodeConfig) (file : Option (List Nat)) (freshId : Uuid) :
    Except BuildNodeError Node × Option (List Nat) :=
  match Persist.open file with
  | .error e => (.error (.IoError e), file)
  | .ok persist0 =>
    let step :=
      if persist0.node_id.isNone then
        let r := persist0.set_node_id freshId
        (r.1, some r.2)
      else (persist0, file)
    let persist1 := step.1
    let file1 := step.2
    match assert_that (!cfg.roles.is_empty) BuildNodeError.NoRolesSet with
    | .error e => (.error e, file1)
    | .ok _ =>
      match
        assert_that (cfg.comms_port != cfg.client_port)
          (BuildNodeError.CommsAndClientOnSamePort cfg.client_port) with
      | .error e => (.error e, file1)
      | .ok _ =>
        (.ok
          { id := persist1.inner.node_id.getD freshId
            roles := cfg.roles
            bind_address := cfg.bind_address
            comms_port := cfg.comms_port
            client_port := cfg.client_port
            persist := persist1
            timeout := cfg.timeout
            comms_socket := none },
          file1)

/-- C10: when the persist file holds no node id, `build_node` persists
a freshly generated id to stable storage before performing the role-set
and port validations, so a build that then fails with the no-roles or
equal-ports error has still durably written the new id. -/
theorem c10_failed_build_still_persists_fresh_id :
    ∀ (cfg : NodeConfig) (freshId : Uuid) (file : Option (List Nat)) (p0 : Persist),
      Persist.open file = .ok p0 → p0.inner.node_id = none →
      (cfg.roles.is_empty = true ∨ cfg.comms_port = cfg.client_port) →
      (∃ e, (cfg.build_node file freshId).1 = .error e) ∧
      (cfg.build_node file freshId).2 =
        some (PersistInner.flushBytes ⟨some freshId, p0.inner.cluster⟩) := by
  intro cfg freshId file p0 hopen hid hfail
  rw [NodeConfig.build_node, hopen]
  simp only [Persist.node_id, hid, Option.isNone_none, if_true, ite_true,
    Persist.set_node_id]
  by_cases hroles : cfg.roles.is_empty = true
  · rw [show assert_that (!cfg.roles.is_empty) BuildNodeError.NoRolesSet =
        .error .NoRolesSet by rw [assert_that, hroles]; rfl]
    exact ⟨⟨.NoRolesSet, rfl⟩, rfl⟩
  · have hports : cfg.comms_port = cfg.client_port := by
      rcases hfail with h | h
      · exact absurd h hroles
      · exact h
    rw [show assert_that (!cfg.roles.is_empty) BuildNodeError.NoRolesSet = .ok () by
      rw [assert_that]
      rw [show (!cfg.roles.is_empty) = true by
        cases h : cfg.roles.is_empty
        · rfl
        · exact absurd h hroles]
      rfl]
    rw [show assert_that (cfg.comms_port != cfg.client_port)
        (BuildNodeError.CommsAndClientOnSamePort cfg.client_port) =
        .error (.CommsAndClientOnSamePort cfg.client_port) by
      rw [assert_that, show (cfg.comms_port != cfg.client_port) = false by
        simp [hports]]
      rfl]
    exact ⟨⟨.CommsAndClientOnSamePort cfg.client_port, rfl⟩, rfl⟩

/-- Witness for C10: an empty-role-set configuration over a missing
persist file fails to build but leaves the fresh id on disk. -/
theorem c10_failed_build_still_persists_fresh_id_witness :
    (∃ e,
      (NodeConfig.build_node ⟨⟨[]⟩, "127.0.0.1", none, [], 16700, 16800⟩ none "aa").1 =
        .error e) ∧
    (NodeConfig.build_node ⟨⟨[]⟩, "127.0.0.1", none, [], 16700, 16800⟩ none "aa").2 =
      some (PersistInner.flushBytes ⟨some "aa", none⟩) :=
  c10_failed_build_still_persists_fresh_id ⟨⟨[]⟩, "127.0.0.1", none, [], 16700, 16800⟩
    "aa" none ⟨⟨none, none⟩⟩ rfl rfl (Or.inl rfl)

/-!
### Cluster operations (cluster_impl.rs) and node startup (node.rs)
-/

/-- `Cluster::new(manager)`: fresh v4 cluster id (the generated uuid is
the `freshId` argument), the given manager, and an empty member map. -/
def Cluster.new (freshId : Uuid) (manager : Uuid) : Cluster :=
  ⟨freshId, manager, []⟩

/-- Modelled from the spec: `Cluster::join_into` is an unimplemented
stub (`todo!()`) in `cluster_impl.rs`; spec §4.4 mandates the concrete
algorithm: the local cluster adopts broader membership from `other`
(the union of both member maps keyed by node id, with `other`'s address
winning for a shared id), adopts the identity of the cluster being
joined into, and resolves the manager by the deterministic tie-break
the spec recommends — the smaller of the two manager ids wins. -/
def Cluster.join_into (self other : Cluster) : Cluster :=
  { id := other.id
    manager := if self.manager < other.manager then self.manager else other.manager
    members :=
      self.members.filter (fun p => !(other.members.any (fun q => q.1 = p.1))) ++
        other.members }

/-- Outcome of `Node::join_cluster`: the cluster to run with, or the
`todo!` panic for joining a cluster managed by another node. -/
inductive JoinClusterOutcome : Type where
  | ok : Cluster → JoinClusterOutcome
  | todoPanic : String → JoinClusterOutcome
deriving DecidableEq

/-- `Node::join_cluster`: re-joining one's own single-node cluster as
manager succeeds; joining an existing foreign cluster is a `todo!`. -/
def Node.join_cluster (n : Node) (cluster : Cluster) : JoinClusterOutcome :=
  if cluster.manager = n.id ∧ n.roles.has_role .ClusterManager = true then .ok cluster
  else .todoPanic "joining existing clusters not yet implemented"

/-- `Node::start_cluster`: create a fresh cluster managed by this node
and persist it; returns the cluster, the updated node, and the flushed
bytes. -/
def Node.start_cluster (n : Node) (freshClusterId : Uuid) : Cluster × Node × List Nat :=
  let cluster := Cluster.new freshClusterId n.id
  let r := n.persist.set_cluster cluster
  (cluster, { n with persist := r.1 }, r.2)

/-- Outcome of the startup portion of `Node::run` (everything before
the TCP bind). -/
inductive RunStartupOutcome : Type where
  | ok : Cluster → Node → List Nat → RunStartupOutcome
  | noClusterError : RunStartupOutcome
  | todoPanic : String → RunStartupOutcome
deriving DecidableEq

/-- Startup decision of `Node::run`: join the persisted cluster if one
exists, else found a fresh cluster when manager-eligible, else fail
with the fatal no-cluster error; every success path then persists the
resulting cluster (`self.persist.set_cluster(cluster)`).  The `ok`
outcome carries the cluster, the node afterwards, and the last flushed
bytes. -/
def Node.runStartup (n : Node) (freshClusterId : Uuid) : RunStartupOutcome :=
  match n.persist.cluster with
  | some cluster =>
    match n.join_cluster cluster with
    | .todoPanic m => .todoPanic m
    | .ok cluster2 =>
      let r := n.persist.set_cluster cluster2
      .ok cluster2 { n with persist := r.1 } r.2
  | none =>
    if n.roles.has_role .ClusterManager then
      let sc := n.start_cluster freshClusterId
      let r := sc.2.1.persist.set_cluster sc.1
      .ok sc.1 { sc.2.1 with persist := r.1 } r.2
    else .noClusterError

/-- C5: at startup, with no persisted cluster and a manager-eligible
role set the node creates and persists a fresh singleton cluster whose
manager is its own id and whose member map is empty; with no persisted
cluster and no manager role startup fails with the fatal no-cluster
error; with a persisted cluster the join protocol is attempted against
it (and its outcome, panic included, is the startup outcome). -/
theorem c5_run_startup_cases :
    ∀ (n : Node) (freshClusterId : Uuid),
      (n.persist.cluster = none → n.roles.has_role .ClusterManager = true →
        n.runStartup freshClusterId =
          .ok (Cluster.mk freshClusterId n.id [])
            { n with persist := ⟨⟨n.persist.inner.node_id,
                some (Cluster.mk freshClusterId n.id [])⟩⟩ }
            (PersistInner.flushBytes
              ⟨n.persist.inner.node_id, some (Cluster.mk freshClusterId n.id [])⟩)) ∧
      (n.persist.cluster = none → n.roles.has_role .ClusterManager = false →
        n.runStartup freshClusterId = .noClusterError) ∧
      (∀ c, n.persist.cluster = some c →
        n.runStartup freshClusterId =
          match n.join_cluster c with
          | .todoPanic m => .todoPanic m
          | .ok c2 =>
            .ok c2 { n with persist := ⟨⟨n.persist.inner.node_id, some c2⟩⟩ }
              (PersistInner.flushBytes ⟨n.persist.inner.node_id, some c2⟩)) := by
  intro n freshClusterId
  refine ⟨?_, ?_, ?_⟩
  · intro hc hrole
    rw [Node.runStartup, hc, hrole]
    rfl
  · intro hc hrole
    rw [Node.runStartup, hc, hrole]
    rfl
  · intro c hc
    rw [Node.runStartup, hc]
    cases hj : n.join_cluster c with
    | todoPanic m => simp only [hj]
    | ok c2 =>
      simp only [hj]
      rfl

/-- Witness for C5: the three startup scenarios at concrete nodes — a
manager-eligible node with empty store founds and persists its own
singleton cluster, a data-only node with empty store fails with the
no-cluster error, and a node with a persisted foreign cluster ends in
the join path's outcome (here the join `todo!`). -/
theorem c5_run_startup_cases_witness :
    (Node.runStartup
        ⟨"aa", ⟨[.ClusterManager]⟩, "127.0.0.1", 16700, 16800, ⟨⟨some "aa", none⟩⟩, none,
          none⟩ "cid" =
      .ok (Cluster.mk "cid" "aa" [])
        ⟨"aa", ⟨[.ClusterManager]⟩, "127.0.0.1", 16700, 16800,
          ⟨⟨some "aa", some (Cluster.mk "cid" "aa" [])⟩⟩, none, none⟩
        (PersistInner.flushBytes ⟨some "aa", some (Cluster.mk "cid" "aa" [])⟩)) ∧
    (Node.runStartup
        ⟨"aa", ⟨[.Data]⟩, "127.0.0.1", 16700, 16800, ⟨⟨some "aa", none⟩⟩, none, none⟩
        "cid" =
      .noClusterError) ∧
    (Node.runStartup
        ⟨"aa", ⟨[.ClusterManager]⟩, "127.0.0.1", 16700, 16800,
          ⟨⟨some "aa", some (Cluster.mk "cid2" "bb" [])⟩⟩, none, none⟩ "cid" =
      .todoPanic "joining existing clusters not yet implemented") := by
  refine ⟨?_, ?_, ?_⟩
  · exact (c5_run_startup_cases _ "cid").1 rfl rfl
  · exact (c5_run_startup_cases _ "cid").2.1 rfl rfl
  · have h :=
      (c5_run_startup_cases
        ⟨"aa", ⟨[.ClusterManager]⟩, "127.0.0.1", 16700, 16800,
          ⟨⟨some "aa", some (Cluster.mk "cid2" "bb" [])⟩⟩, none, none⟩ "cid").2.2
        (Cluster.mk "cid2" "bb" []) rfl
    rw [h]
    rfl

/-!
### Request handling (node.rs): authorization gate and dispatch
-/

/-- `Node::is_manager`: the stored node id equals the stored cluster's
manager (false when either is absent). -/
def Node.is_manager (n : Node) : Bool :=
  match n.persist.node_id, n.persist.cluster with
  | some node_id, some cluster => node_id = cluster.manager
  | _, _ => false

/-- Outcome of `Node::get_response`.  `ok` carries the response, the
node afterwards, and the bytes flushed by `modify_cluster` (if any);
`ioError` is a failed outbound send; `panicked` is a reached `panic!`
with its message. -/
inductive GetResponseOutcome : Type where
  | ok : Response → Node → Option (List Nat) → GetResponseOutcome
  | ioError : GetResponseOutcome
  | panicked : String → GetResponseOutcome
deriving DecidableEq

/-- `Node::get_response`, with the peer modelled as an oracle `net`
mapping each outbound request to the peer's reply (or an I/O failure).
`Ping` answers `Pong`; `GetInfo` answers `NodeInfo` with this node's id
and persisted cluster; `ConnectToCluster` pings the peer, asks it for
its info, panics (as the source does) if the reply is not `NodeInfo`
or carries no cluster, and otherwise merges the peer's cluster into the
persisted one via `join_into` (which in the source is itself an
unimplemented stub — see `Cluster.join_into`) and answers `Ok`. -/
def Node.get_response (n : Node) (req : Request) (net : Request → Except Unit Response) :
    GetResponseOutcome :=
  match req.body with
  | .Ping => .ok ⟨[], .Pong⟩ n none
  | .GetInfo => .ok ⟨[], .NodeInfo n.id n.persist.cluster⟩ n none
  | .ConnectToCluster _ =>
    match net ⟨some n.id, [], .Ping⟩ with
    | .error _ => .ioError
    | .ok _ =>
      match net ⟨some n.id, [], .GetInfo⟩ with
      | .error _ => .ioError
      | .ok resp =>
        match resp.body with
        | .NodeInfo _ cluster =>
          match cluster with
          | none => .panicked "node is not part of any cluster"
          | some cluster =>
            let r := n.persist.modify_cluster (fun my => my.join_into cluster)
            .ok ⟨[], .Ok⟩ { n with persist := r.1 } r.2
        | _ => .panicked "could not get node info"

/-- Outcome of `Node::handle_connect` after a request frame has been
decoded. -/
inductive HandleOutcome : Type where
  | responded : Response → Node → Option (List Nat) → HandleOutcome
  | ioError : HandleOutcome
  | panicked : String → HandleOutcome
deriving DecidableEq

/-- The dispatch portion of `Node::handle_connect`: answer the request
if this node is the manager or the request's declared origin equals the
stored cluster's manager; otherwise the source hits
`todo!("forwarding to cluster manager")`, which panics. -/
def Node.handle_request (n : Node) (req : Request)
    (net : Request → Except Unit Response) : HandleOutcome :=
  if n.is_manager = true ∨ req.node = n.persist.cluster.map Cluster.manager then
    match n.get_response req net with
    | .ok resp n2 fl => .responded resp n2 fl
    | .ioError => .ioError
    | .panicked m => .panicked m
  else .panicked "forwarding to cluster manager"

/-- C2 (code bug): the authorization gate itself matches the claim — at
a concrete non-manager node, a request whose origin equals the stored
manager is answered — but an unauthorized request does not end in a
reported would-forward condition: it reaches
`todo!("forwarding to cluster manager")` and panics. -/
theorem c2_unauthorized_request_panics :
    (Node.handle_request
        ⟨"cc", ⟨[.Data]⟩, "127.0.0.1", 16700, 16800,
          ⟨⟨some "cc", some (Cluster.mk "cl" "mm" [])⟩⟩, none, none⟩
        ⟨some "mm", [], .Ping⟩ (fun _ => .error ()) =
      .responded ⟨[], .Pong⟩
        ⟨"cc", ⟨[.Data]⟩, "127.0.0.1", 16700, 16800,
          ⟨⟨some "cc", some (Cluster.mk "cl" "mm" [])⟩⟩, none, none⟩ none) ∧
    (Node.handle_request
        ⟨"cc", ⟨[.Data]⟩, "127.0.0.1", 16700, 16800,
          ⟨⟨some "cc", some (Cluster.mk "cl" "mm" [])⟩⟩, none, none⟩
        ⟨some "dd", [], .Ping⟩ (fun _ => .error ()) =
      .panicked "forwarding to cluster manager") := by
  constructor
  · rfl
  · rfl

/-- C3 (code bug): at a concrete node handling
`ConnectToCluster "127.0.0.1:10000"`, a peer whose `GetInfo` reply is
not `NodeInfo` makes `get_response` reach
`panic!("could not get node info")`, and a `NodeInfo` reply whose
cluster is absent makes it reach
`panic!("node is not part of any cluster")` — neither is an error
return. -/
theorem c3_connect_to_cluster_panics_on_bad_peer_reply :
    (Node.get_response
        ⟨"cc", ⟨[.ClusterManager]⟩, "127.0.0.1", 16700, 16800,
          ⟨⟨some "cc", some (Cluster.mk "cl" "cc" [])⟩⟩, none, none⟩
        ⟨none, [], .ConnectToCluster "127.0.0.1:10000"⟩
        (fun _ => .ok ⟨[], .Pong⟩) =
      .panicked "could not get node info") ∧
    (Node.get_response
        ⟨"cc", ⟨[.ClusterManager]⟩, "127.0.0.1", 16700, 16800,
          ⟨⟨some "cc", some (Cluster.mk "cl" "cc" [])⟩⟩, none, none⟩
        ⟨none, [], .ConnectToCluster "127.0.0.1:10000"⟩
        (fun r =>
          match r.body with
          | .GetInfo => .ok ⟨[], .NodeInfo "ee" none⟩
          | _ => .ok ⟨[], .Pong⟩) =
      .panicked "node is not part of any cluster") := by
  constructor
  · rfl
  · rfl

/-!
### Claim about the membership merge
-/

/-- C1 (against the spec-modelled `Cluster.join_into`; the source body
is `todo!()`): merging is total — the resulting membership contains
every node id known to either side — applying `join_into` a second time
with the same argument leaves the cluster unchanged, and the resulting
manager is the fixed deterministic tie-break over the two manager ids
(the smaller id), not an unconditional preference of either side. -/
theorem c1_join_into_total_idempotent_tiebreak :
    ∀ a b : Cluster,
      ((a.members.map Prod.fst).all
          (fun k => ((a.join_into b).members.map Prod.fst).contains k) = true) ∧
      ((b.members.map Prod.fst).all
          (fun k => ((a.join_into b).members.map Prod.fst).contains k) = true) ∧
      (a.join_into b).join_into b = a.join_into b ∧
      (a.join_into b).manager =
        (if a.manager < b.manager then a.manager else b.manager) := by
  intro a b
  refine ⟨?_, ?_, ?_, rfl⟩
  · rw [List.all_eq_true]
    intro k hk
    simp only [List.mem_map] at hk
    obtain ⟨p, hmem, hfst⟩ := hk
    have hx : k ∈ ((a.join_into b).members.map Prod.fst) := by
      simp only [Cluster.join_into, List.map_append, List.mem_append]
      by_cases hany : (b.members.any (fun q => q.1 = p.1)) = true
      · right
        rw [List.any_eq_true] at hany
        obtain ⟨q, hq, hq2⟩ := hany
        simp only [decide_eq_true_eq] at hq2
        exact List.mem_map.mpr ⟨q, hq, by rw [hq2, hfst]⟩
      · left
        refine List.mem_map.mpr ⟨p, ?_, hfst⟩
        rw [List.mem_filter]
        refine ⟨hmem, ?_⟩
        rw [Bool.not_eq_true] at hany
        rw [hany]
        rfl
    exact List.elem_iff.mpr hx
  · rw [List.all_eq_true]
    intro k hk
    simp only [List.mem_map] at hk
    obtain ⟨p, hmem, hfst⟩ := hk
    have hx : k ∈ ((a.join_into b).members.map Prod.fst) := by
      simp only [Cluster.join_into, List.map_append, List.mem_append]
      exact Or.inr (List.mem_map.mpr ⟨p, hmem, hfst⟩)
    exact List.elem_iff.mpr hx
  · simp only [Cluster.join_into]
    refine congrArg₂ (fun m ms => Cluster.mk b.id m ms) ?_ ?_
    · by_cases h : a.manager < b.manager
      · simp [h]
      · simp [h, lt_irrefl]
    · rw [List.filter_append, List.filter_filter]
      have h2 : b.members.filter (fun p => !(b.members.any fun q => q.1 = p.1)) = [] := by
        rw [List.filter_eq_nil_iff]
        intro q hq
        simp only [Bool.not_eq_true', Bool.not_eq_false]
        exact List.any_eq_true.mpr ⟨q, hq, by simp⟩
      rw [h2, List.append_nil]
      refine congrArg₂ (fun l1 l2 => l1 ++ l2) ?_ rfl
      refine congrArg (fun f => List.filter f a.members) ?_
      funext p
      exact Bool.and_self _

end Whirlpool
